import Mathlib

/-!
Shallow embedding of the supply-chain risk simulator
(`dependency_graph.py` and `analysis_metrics.py`).

Python floats are modelled by exact rationals, datetimes by integer day
numbers, dicts by association lists preserving insertion order, and the
process-wide uniform random source by an explicit stream `draws : ℕ → ℚ`
consumed at an explicit index, in the exact order the source consumes it.
-/

namespace SupplyChain

/-- Python substring test `needle in hay` on strings. -/
def strContains (needle hay : String) : Bool :=
  decide (needle.data <:+: hay.data)

/-- First-match association-list lookup (Python dict access by key). -/
def dict_get {α : Type} (l : List (String × α)) (k : String) : Option α :=
  (l.find? (fun kv => kv.1 == k)).map (fun kv => kv.2)

/-- Python dict assignment: overwrite in place if the key exists, else append. -/
def dict_set {α : Type} (l : List (String × α)) (k : String) (v : α) :
    List (String × α) :=
  if (dict_get l k).isSome then
    l.map (fun kv => if kv.1 == k then (k, v) else kv)
  else
    l ++ [(k, v)]

/-- `SoftwareType` enum from `dependency_graph.py`. -/
inductive SoftwareType where
  | application
  | library
  | framework
  | utility
  | operating_system
  | service
  | database
deriving DecidableEq

/-- `VulnerabilityLevel` enum from `dependency_graph.py`. -/
inductive VulnerabilityLevel where
  | critical
  | high
  | medium
  | low
deriving DecidableEq

/-- `SoftwareComponent` dataclass.  `compromise_time` and dates are integer
day numbers standing for datetimes. -/
structure SoftwareComponent where
  name : String
  version : String
  software_type : SoftwareType
  is_compromised : Bool := false
  compromise_time : Option ℤ := none
  patch_time_days : ℤ := 30
  criticality_score : ℚ := 1
deriving DecidableEq

/-- `id = f"{name}:{version}"` from `__post_init__`. -/
def SoftwareComponent.id (c : SoftwareComponent) : String :=
  c.name ++ ":" ++ c.version

/-- `Vulnerability` dataclass. -/
structure Vulnerability where
  cve_id : String
  severity : VulnerabilityLevel
  discovery_date : ℤ
  patch_available : Bool := false
  exploit_probability : ℚ := 1/10
deriving DecidableEq

/-- The `DependencyGraph` store: the components dict, the directed edge set
of the `nx.DiGraph` (an edge runs from the dependency to the dependent), and
the vulnerabilities dict keyed by `f"{component_id}:{cve_id}"`.
The node set of the `nx.DiGraph` always coincides with the key set of the
components dict (nodes are added only by `add_component`, and
`add_dependency` only links existing components), so node-membership tests
are modelled by component-key lookup. -/
structure DependencyGraph where
  components : List (String × SoftwareComponent) := []
  edges : List (String × String) := []
  vulnerabilities : List (String × Vulnerability) := []
deriving DecidableEq

/-- `add_component`: insert by identity key (overwrite on reinsert). -/
def add_component (g : DependencyGraph) (c : SoftwareComponent) : DependencyGraph :=
  { g with components := dict_set g.components c.id c }

/-- `add_dependency(dependent_id, dependency_id)`: adds the directed edge
`dependency_id → dependent_id` when both endpoints are present; silent no-op
otherwise.  Re-adding an existing edge leaves the edge set unchanged. -/
def add_dependency (g : DependencyGraph) (dependent_id dependency_id : String) :
    DependencyGraph :=
  if (dict_get g.components dependent_id).isSome ∧
     (dict_get g.components dependency_id).isSome then
    if (dependency_id, dependent_id) ∈ g.edges then g
    else { g with edges := g.edges ++ [(dependency_id, dependent_id)] }
  else g

/-- `add_vulnerability(component_id, vulnerability)`: store under the
composite key; when the vulnerability has no patch available, mark the
component compromised at the discovery date.  No-op if the component is
absent. -/
def add_vulnerability (g : DependencyGraph) (component_id : String)
    (v : Vulnerability) : DependencyGraph :=
  if (dict_get g.components component_id).isSome then
    let g' := { g with
      vulnerabilities := dict_set g.vulnerabilities (component_id ++ ":" ++ v.cve_id) v }
    if ¬ v.patch_available then
      { g' with components := g'.components.map (fun kv =>
          if kv.1 == component_id then
            (kv.1, { kv.2 with is_compromised := true,
                               compromise_time := some v.discovery_date })
          else kv) }
    else g'
  else g

/-- Direct successors of a node (`graph.successors`): targets of edges
leaving it, in edge-insertion order. -/
def successors (g : DependencyGraph) (id : String) : List String :=
  (g.edges.filter (fun e => e.1 == id)).map (fun e => e.2)

/-- Direct predecessors of a node (`graph.predecessors`). -/
def predecessors (g : DependencyGraph) (id : String) : List String :=
  (g.edges.filter (fun e => e.2 == id)).map (fun e => e.1)

/-- Append an element to the visited list unless already present. -/
def addNew (acc : List String) (s : String) : List String :=
  if s ∈ acc then acc else acc ++ [s]

/-- One round of breadth-first expansion: add every one-step neighbour of
every visited node. -/
def expandOnce (next : String → List String) (visited : List String) :
    List String :=
  visited.foldl (fun acc v => (next v).foldl addNew acc) visited

/-- The set of nodes within `d` hops of `start` (including `start`),
as a duplicate-free list in breadth-first discovery order. -/
def visitedAfter (next : String → List String) (start : String) : ℕ → List String
  | 0 => [start]
  | d + 1 => expandOnce next (visitedAfter next start d)

/-- Cycle-safe reachability closure (`nx.descendants` / `nx.ancestors`):
all nodes reachable from `start` through `next`, excluding `start` itself.
`g.edges.length + 1` breadth-first rounds always suffice, since every
reachable node other than `start` is the target of some edge. -/
def reachClosure (g : DependencyGraph) (next : String → List String)
    (start : String) : List String :=
  (visitedAfter next start (g.edges.length + 1)).filter (fun x => x != start)

/-- `get_dependents(component_id, direct_only)`: direct successors, or the
full descendant closure; empty for an id that is not a node. -/
def get_dependents (g : DependencyGraph) (id : String)
    (direct_only : Bool) : List String :=
  if (dict_get g.components id).isNone then []
  else if direct_only then successors g id
  else reachClosure g (successors g) id

/-- `get_dependencies(component_id, direct_only)`: direct predecessors, or
the full ancestor closure; empty for an id that is not a node. -/
def get_dependencies (g : DependencyGraph) (id : String)
    (direct_only : Bool) : List String :=
  if (dict_get g.components id).isNone then []
  else if direct_only then predecessors g id
  else reachClosure g (predecessors g) id

/-- `calculate_impact_score`: the component's own criticality plus half the
criticality of every transitive dependent; 0 for an unknown component. -/
def calculate_impact_score (g : DependencyGraph) (id : String) : ℚ :=
  match dict_get g.components id with
  | none => 0
  | some c =>
      (get_dependents g id false).foldl (fun acc d =>
        match dict_get g.components d with
        | none => acc
        | some dep => acc + dep.criticality_score * (1/2)) c.criticality_score

/-! ## Risk scorer (`analysis_metrics.py`, `calculate_supply_chain_risk_score`) -/

/-- The `type_risk` table, as stored in the source. -/
def type_risk : List (SoftwareType × ℚ) :=
  [(.application, 9), (.library, 6), (.framework, 7), (.utility, 5),
   (.operating_system, 8), (.service, 8), (.database, 9)]

/-- `type_risk.get(component.software_type, 5)`. -/
def base_risk_of (t : SoftwareType) : ℚ :=
  ((type_risk.find? (fun kv => decide (kv.1 = t))).map (fun kv => kv.2)).getD 5

/-- The `severity_scores` map. -/
def severity_scores : VulnerabilityLevel → ℚ
  | .critical => 10
  | .high => 7
  | .medium => 4
  | .low => 1

/-- The vulnerability-risk sub-score: fold over the whole vulnerability
table, taking the max severity score over the entries whose composite key
contains `comp_id` as a substring (`if comp_id in vuln_key`), starting at 0. -/
def vuln_risk_of (g : DependencyGraph) (comp_id : String) : ℚ :=
  g.vulnerabilities.foldl (fun acc kv =>
    if strContains comp_id kv.1 then max acc (severity_scores kv.2.severity)
    else acc) 0

/-- The dependency-risk sub-score: `min(10, dependents_count)` over the
unbounded dependent closure. -/
def dependency_risk_of (g : DependencyGraph) (comp_id : String) : ℚ :=
  min 10 ((get_dependents g comp_id false).length : ℚ)

/-- One per-component record of `component_risks`. -/
structure RiskEntry where
  base_risk : ℚ
  criticality_risk : ℚ
  dependency_risk : ℚ
  vulnerability_risk : ℚ
  compound_risk : ℚ
deriving DecidableEq

/-- The sub-scores and compound score computed for one component inside
`calculate_supply_chain_risk_score`. -/
def component_risk (g : DependencyGraph) (comp_id : String)
    (c : SoftwareComponent) : RiskEntry :=
  let base := base_risk_of c.software_type
  let crit := c.criticality_score
  let dep := dependency_risk_of g comp_id
  let vuln := vuln_risk_of g comp_id
  { base_risk := base
    criticality_risk := crit
    dependency_risk := dep
    vulnerability_risk := vuln
    compound_risk := base * (3/10) + crit * (1/4) + dep * (1/4) + vuln * (1/5) }

/-- The `component_risks` map of `calculate_supply_chain_risk_score`. -/
def component_risks (g : DependencyGraph) : List (String × RiskEntry) :=
  g.components.map (fun kv => (kv.1, component_risk g kv.1 kv.2))

/-! ## Attack-propagation simulator (`simulate_attack_propagation`) -/

/-- One entry of the `compromised_timeline` list. -/
structure TimelineEvent where
  day : ℕ
  date : ℤ
  component_id : String
  component_name : String
  source_component : String
  compromise_probability : ℚ
deriving DecidableEq

/-- One entry of the `detection_events` list. -/
structure DetectionEvent where
  day : ℕ
  date : ℤ
  component_id : String
  component_name : String
  days_since_compromise : ℤ
deriving DecidableEq

/-- The mutable state threaded through a simulation run: the (mutated)
components dict, the two event logs, and the index of the next uniform
random draw to consume. -/
structure SimState where
  comps : List (String × SoftwareComponent)
  timeline : List TimelineEvent
  detections : List DetectionEvent
  idx : ℕ
deriving DecidableEq

/-- Reset every component's compromise flag and timestamp (start of a run). -/
def reset_components (comps : List (String × SoftwareComponent)) :
    List (String × SoftwareComponent) :=
  comps.map (fun kv => (kv.1, { kv.2 with is_compromised := false,
                                          compromise_time := none }))

/-- Mark the component `cid` compromised at time `t` in the components dict. -/
def set_compromised (comps : List (String × SoftwareComponent)) (cid : String)
    (t : ℤ) : List (String × SoftwareComponent) :=
  comps.map (fun kv =>
    if kv.1 == cid then
      (kv.1, { kv.2 with is_compromised := true, compromise_time := some t })
    else kv)

/-- The `vuln_factor` loop: starts at 1.0 and takes the max with the exploit
probability of every vulnerability whose composite key contains the
dependent's id as a substring. -/
def vuln_factor (vulns : List (String × Vulnerability)) (dependent_id : String) : ℚ :=
  vulns.foldl (fun acc kv =>
    if strContains dependent_id kv.1 then max acc kv.2.exploit_probability
    else acc) 1

/-- The per-pair compromise probability the simulator computes on day `day`
for an edge from compromised source `src` to dependent `dep`:
`base_probability * time_factor * criticality_factor * vuln_factor` with
`base_probability = 0.05`, `time_factor = min(1, days_since_compromise/7)`
and `criticality_factor = criticality/10`.  `t0` is the simulation start
time, so the current date is `t0 + day`. -/
def compromise_probability (vulns : List (String × Vulnerability)) (t0 : ℤ)
    (day : ℕ) (src dep : SoftwareComponent) (dependent_id : String) : ℚ :=
  let days_since : ℤ := (t0 + day) - (src.compromise_time.getD t0)
  (1/20) * min 1 ((days_since : ℚ) / 7) * (dep.criticality_score / 10) *
    vuln_factor vulns dependent_id

/-- Processing of one direct dependent of a compromised source inside the
day loop.  The not-yet-compromised test consults only `current`, the
compromised set as of the start of the day; a successful draw appends a
timeline event, marks the dependent compromised at the current date, and
adds it to the `new_compromises` accumulator (a set: no duplicate entry). -/
def process_dependent (vulns : List (String × Vulnerability)) (t0 : ℤ)
    (day : ℕ) (draws : ℕ → ℚ) (current : List String) (src_id : String)
    (src : SoftwareComponent) (acc : SimState × List String)
    (dependent_id : String) : SimState × List String :=
  if dependent_id ∈ current then acc
  else
    match dict_get acc.1.comps dependent_id with
    | none => acc
    | some dep =>
        let p := compromise_probability vulns t0 day src dep dependent_id
        if draws acc.1.idx < p then
          ({ comps := set_compromised acc.1.comps dependent_id (t0 + day)
             timeline := acc.1.timeline ++
               [{ day := day, date := t0 + day, component_id := dependent_id,
                  component_name := dep.name, source_component := src_id,
                  compromise_probability := p }]
             detections := acc.1.detections
             idx := acc.1.idx + 1 },
           if dependent_id ∈ acc.2 then acc.2 else acc.2 ++ [dependent_id])
        else ({ acc.1 with idx := acc.1.idx + 1 }, acc.2)

/-- Processing of one compromised source in the day loop: walk its direct
dependents in edge order. -/
def process_source (g : DependencyGraph) (t0 : ℤ) (day : ℕ) (draws : ℕ → ℚ)
    (current : List String) (acc : SimState × List String) (src_id : String) :
    SimState × List String :=
  match dict_get acc.1.comps src_id with
  | none => acc
  | some src =>
      (successors g src_id).foldl
        (process_dependent g.vulnerabilities t0 day draws current src_id src) acc

/-- The per-component detection check: one uniform draw is consumed for
every currently-compromised component; a draw below `detection_probability`
appends a detection event. -/
def detection_step (dp : ℚ) (t0 : ℤ) (day : ℕ) (draws : ℕ → ℚ)
    (st : SimState) (cid : String) : SimState :=
  match dict_get st.comps cid with
  | none => { st with idx := st.idx + 1 }
  | some c =>
      if draws st.idx < dp then
        { st with
          detections := st.detections ++
            [{ day := day, date := t0 + day, component_id := cid,
               component_name := c.name,
               days_since_compromise := (t0 + day) - (c.compromise_time.getD t0) }]
          idx := st.idx + 1 }
      else { st with idx := st.idx + 1 }

/-- One simulated day: spread from every start-of-day compromised component
to its direct dependents, merge the day's new compromises into the
compromised set only after the pass completes, then run the detection
draws over the updated set. -/
def day_step (g : DependencyGraph) (t0 : ℤ) (dp : ℚ) (draws : ℕ → ℚ)
    (acc : SimState × List String) (day : ℕ) : SimState × List String :=
  let r := acc.2.foldl (process_source g t0 day draws acc.2) (acc.1, [])
  let current := acc.2 ++ r.2
  let st := current.foldl (detection_step dp t0 day draws) r.1
  (st, current)

/-- The core simulation run: reset all compromise state, compromise the
initial component at the start time `t0`, then iterate the day loop for
`days` days starting from draw index `idx0`.  Returns the final state and
the final compromised-id list. -/
def simulate_attack_run (g : DependencyGraph) (t0 : ℤ) (draws : ℕ → ℚ)
    (idx0 : ℕ) (initial : String) (days : ℕ) (dp : ℚ) :
    SimState × List String :=
  let comps0 := set_compromised (reset_components g.components) initial t0
  (List.range days).foldl (day_step g t0 dp draws)
    ({ comps := comps0, timeline := [], detections := [], idx := idx0 }, [initial])

/-- The result dictionary returned by `simulate_attack_propagation`. -/
structure AttackResult where
  initial_compromise : String
  simulation_days : ℕ
  total_components : ℕ
  compromised_count : ℕ
  compromise_percentage : ℚ
  applications_affected : ℕ
  timeline : List TimelineEvent
  detection_events : List DetectionEvent
  final_compromised : List String
deriving DecidableEq

/-- Assemble the final statistics of a run. -/
def attack_result_of (g : DependencyGraph) (initial : String) (days : ℕ)
    (out : SimState × List String) : AttackResult :=
  { initial_compromise := initial
    simulation_days := days
    total_components := g.components.length
    compromised_count := out.2.length
    compromise_percentage := ((out.2.length : ℚ) / (g.components.length : ℚ)) * 100
    applications_affected := (out.2.filter (fun cid =>
      match dict_get out.1.comps cid with
      | some c => decide (c.software_type = SoftwareType.application)
      | none => false)).length
    timeline := out.1.timeline
    detection_events := out.1.detections
    final_compromised := out.2 }

/-- `simulate_attack_propagation`: raises (`.error`) when the initial
component is unknown, otherwise runs the simulation. -/
def simulate_attack_propagation (g : DependencyGraph) (t0 : ℤ)
    (draws : ℕ → ℚ) (idx0 : ℕ) (initial : String) (days : ℕ) (dp : ℚ) :
    Except String AttackResult :=
  match dict_get g.components initial with
  | none => .error ("Component " ++ initial ++ " not found")
  | some _ => .ok (attack_result_of g initial days
      (simulate_attack_run g t0 draws idx0 initial days dp))

/-! ## Patch-race comparator (`calculate_time_to_patch`, `simulate_patching_race`) -/

/-- The four organization types of the `base_times` table. -/
inductive OrgType where
  | enterprise
  | large
  | medium
  | small
deriving DecidableEq

/-- The `base_times` table: base patch days by organization type and
severity. -/
def base_times : OrgType → VulnerabilityLevel → ℤ
  | .enterprise, .critical => 3
  | .enterprise, .high => 7
  | .enterprise, .medium => 30
  | .enterprise, .low => 90
  | .large, .critical => 7
  | .large, .high => 14
  | .large, .medium => 45
  | .large, .low => 120
  | .medium, .critical => 14
  | .medium, .high => 30
  | .medium, .medium => 60
  | .medium, .low => 180
  | .small, .critical => 30
  | .small, .high => 60
  | .small, .medium => 90
  | .small, .low => 365

/-- Severity ordering used to accumulate the worst severity. -/
def severity_rank : VulnerabilityLevel → ℕ
  | .critical => 3
  | .high => 2
  | .medium => 1
  | .low => 0

/-- The worse of two severities. -/
def sev_max (a b : VulnerabilityLevel) : VulnerabilityLevel :=
  if severity_rank a < severity_rank b then b else a

/-- The `max_severity` loop of `calculate_time_to_patch`: worst severity over
the vulnerabilities whose composite key contains the component id as a
substring, starting from LOW.  (The source's early `break` on critical
computes the same maximum.) -/
def worst_severity (vulns : List (String × Vulnerability)) (comp_id : String) :
    VulnerabilityLevel :=
  vulns.foldl (fun acc kv =>
    if strContains comp_id kv.1 then sev_max acc kv.2.severity else acc) .low

/-- Python `int()` applied to a rational: truncation toward zero. -/
def py_int (q : ℚ) : ℤ :=
  if 0 ≤ q then ⌊q⌋ else ⌈q⌉

/-- `calculate_time_to_patch`: base days from the table, adjusted by the
software-type multiplier, then scaled by the uniform jitter `variation`
drawn from [0.8, 1.4]; 0 for an unknown component. -/
def calculate_time_to_patch (g : DependencyGraph) (comp_id : String)
    (org : OrgType) (variation : ℚ) : ℤ :=
  match dict_get g.components comp_id with
  | none => 0
  | some c =>
      let base : ℤ := base_times org (worst_severity g.vulnerabilities comp_id)
      let base : ℤ :=
        if c.software_type = SoftwareType.application then
          py_int ((base : ℚ) * (7/10))
        else if c.software_type = SoftwareType.operating_system then
          py_int ((base : ℚ) * (3/2))
        else if c.software_type = SoftwareType.database then
          py_int ((base : ℚ) * (13/10))
        else base
      py_int ((base : ℚ) * variation)

/-- One entry of the `vulnerable_window` list. -/
structure WindowEntry where
  component_id : String
  component_name : String
  compromise_day : ℕ
  patch_day : ℤ
  vulnerability_window : ℤ
deriving DecidableEq

/-- The per-organization-type result of `simulate_patching_race`. -/
structure OrgRaceResult where
  attack_result : AttackResult
  patching_timeline : List (String × ℤ)
  vulnerable_window : List WindowEntry
  components_saved_by_patching : ℤ
  patch_effectiveness : ℚ
deriving DecidableEq

/-- The patch timeline for one organization type: one uniform draw per
component, consumed in component-insertion order, starting at draw index
`idx`.  Returns the timeline and the next draw index. -/
def patching_timeline_of (g : DependencyGraph) (org : OrgType)
    (draws : ℕ → ℚ) (idx : ℕ) : List (String × ℤ) × ℕ :=
  g.components.foldl (fun acc kv =>
    let variation : ℚ := 4/5 + draws acc.2 * (3/5)
    (acc.1 ++ [(kv.1, calculate_time_to_patch g kv.1 org variation)], acc.2 + 1))
    ([], idx)

/-- Classify the timeline events whose compromise day strictly precedes the
component's computed patch day. -/
def vulnerable_window_of (timeline : List TimelineEvent)
    (pt : List (String × ℤ)) : List WindowEntry :=
  timeline.foldl (fun w e =>
    let patch_day := (dict_get pt e.component_id).getD 0
    if (e.day : ℤ) < patch_day then
      w ++ [{ component_id := e.component_id, component_name := e.component_name,
              compromise_day := e.day, patch_day := patch_day,
              vulnerability_window := patch_day - e.day }]
    else w) []

/-- The result record of `simulate_patching_race` for one organization type,
given a finished attack run and the patch timeline. -/
def org_race_result (attack : AttackResult) (pt : List (String × ℤ)) :
    OrgRaceResult :=
  let window := vulnerable_window_of attack.timeline pt
  { attack_result := attack
    patching_timeline := pt
    vulnerable_window := window
    components_saved_by_patching :=
      (attack.compromised_count : ℤ) - window.length
    patch_effectiveness :=
      if 0 < attack.compromised_count then
        ((attack.compromised_count : ℚ) - (window.length : ℚ)) /
          (attack.compromised_count : ℚ) * 100
      else 100 }

/-- The per-organization-type step of `simulate_patching_race`: run a fresh
attack simulation continuing the draw stream, compute the patch timeline
(consuming one further draw per component), and append the race result. -/
def race_step (g : DependencyGraph) (t0 : ℤ) (draws : ℕ → ℚ)
    (initial : String) (days : ℕ) (dp : ℚ)
    (acc : List (OrgType × OrgRaceResult) × ℕ) (org : OrgType) :
    List (OrgType × OrgRaceResult) × ℕ :=
  let run := simulate_attack_run g t0 draws acc.2 initial days dp
  let attack := attack_result_of g initial days run
  let pt := patching_timeline_of g org draws run.1.idx
  (acc.1 ++ [(org, org_race_result attack pt.1)], pt.2)

/-- `simulate_patching_race`: iterate `race_step` over the organization
types.  The unknown-initial-component error of the inner attack simulation
propagates. -/
def simulate_patching_race (g : DependencyGraph) (t0 : ℤ) (draws : ℕ → ℚ)
    (idx0 : ℕ) (initial : String) (days : ℕ) (dp : ℚ)
    (orgs : List OrgType) : Except String (List (OrgType × OrgRaceResult)) :=
  match dict_get g.components initial with
  | none => .error ("Component " ++ initial ++ " not found")
  | some _ =>
      .ok (orgs.foldl (race_step g t0 draws initial days dp) ([], idx0)).1

/-! ## Depth-bounded dependent queries

The repository's refactored graph module
(`supply_chain_analyzer/core/dependency_graph.py`, the one its tests and
examples call with a `max_depth` keyword) is not present in the source
tree; only its callers are.  The depth-bounded query is therefore modelled
from the specification. -/

/-- Modelled from the spec: `getDependents(componentId, maxDepth)` of the
missing `supply_chain_analyzer.core.dependency_graph` module — the
descendant query with `maxDepth` bounding the BFS hop count from the
target, empty for an absent component, excluding the component itself. -/
def get_dependents_depth (g : DependencyGraph) (id : String) (d : ℕ) :
    List String :=
  if (dict_get g.components id).isNone then []
  else (visitedAfter (successors g) id d).filter (fun x => x != id)

/-- Modelled from the spec: the "graph diameter from C" — the greatest BFS
hop distance from `id` to any of its reachable nodes, computed as the least
number of BFS rounds after which the reachable set is complete. -/
def bfs_ecc (g : DependencyGraph) (id : String) : ℕ :=
  (((List.range (g.edges.length + 2)).filter (fun d =>
      (visitedAfter (successors g) id (g.edges.length + 1)).all (fun x =>
        (visitedAfter (successors g) id d).contains x))).head?).getD
    (g.edges.length + 1)

/-! ## Definitions following the claims' own words, for comparison -/

/-- As the claim words it: the maximum exploit probability over the
vulnerabilities attached to the dependent (stored under composite keys whose
component part is the dependent's id), defaulting to 1.0 when it has none. -/
def claimed_vuln_factor (vulns : List (String × Vulnerability))
    (dependent_id : String) : ℚ :=
  let attached := vulns.filter (fun kv =>
    decide ((dependent_id ++ ":").data <+: kv.1.data))
  match attached with
  | [] => 1
  | kv :: rest => rest.foldl (fun a kv' => max a kv'.2.exploit_probability)
      kv.2.exploit_probability

/-- As claim C1 words the per-pair probability:
`p = 0.05 * min(1, days/7) * (criticality/10) * m` with `m` the claimed
vulnerability factor. -/
def claimed_compromise_probability (vulns : List (String × Vulnerability))
    (t0 : ℤ) (day : ℕ) (src dep : SoftwareComponent) (dependent_id : String) : ℚ :=
  let days_since : ℤ := (t0 + day) - (src.compromise_time.getD t0)
  (1/20) * min 1 ((days_since : ℚ) / 7) * (dep.criticality_score / 10) *
    claimed_vuln_factor vulns dependent_id

/-- As claim C3 words the vulnerability-risk sub-score: the maximum severity
score over exactly the vulnerabilities stored under composite keys whose
component part is `comp_id`, and 0 when there are none. -/
def claimed_vuln_risk (g : DependencyGraph) (comp_id : String) : ℚ :=
  ((g.vulnerabilities.filter (fun kv =>
      decide ((comp_id ++ ":").data <+: kv.1.data))).map
    (fun kv => severity_scores kv.2.severity)).foldl max 0

/-! ## Concrete instances -/

/-- Build a component with the given name, version, type and criticality. -/
def mk_component (n v : String) (t : SoftwareType) (crit : ℚ) :
    SoftwareComponent :=
  { name := n, version := v, software_type := t, criticality_score := crit }

/-- A one-component store ("a:1"). -/
def gW : DependencyGraph :=
  add_component {} (mk_component "a" "1" .application 10)

/-- The three-component chain of the end-to-end scenario: A (criticality 10)
depends on B (criticality 5), B depends on C (criticality 2). -/
def gC4 : DependencyGraph :=
  let g := add_component (add_component (add_component {}
    (mk_component "a" "1" .application 10))
    (mk_component "b" "1" .library 5))
    (mk_component "c" "1" .library 2)
  add_dependency (add_dependency g "a:1" "b:1") "b:1" "c:1"

/-- Two components "b:1" and "ab:1" where the id of the first is a substring
of the second's composite vulnerability keys; one critical vulnerability
attached to "ab:1" (patch available, so no compromise is triggered). -/
def gC3 : DependencyGraph :=
  add_vulnerability
    (add_component (add_component {} (mk_component "b" "1" .library 1))
      (mk_component "ab" "1" .library 1))
    "ab:1"
    { cve_id := "CVE-9", severity := .critical, discovery_date := 0,
      patch_available := true, exploit_probability := 1/2 }

/-- A single component depending on itself. -/
def gC6 : DependencyGraph :=
  add_dependency (add_component {} (mk_component "x" "1" .library 1)) "x:1" "x:1"

/-- An application of criticality 10 carrying a critical vulnerability, with
ten dependents. -/
def gC5 : DependencyGraph :=
  let g0 := add_component {} (mk_component "app" "1" .application 10)
  let g1 := (List.range 10).foldl (fun g i =>
    add_dependency
      (add_component g (mk_component ("d" ++ toString i) "1" .library 1))
      ("d" ++ toString i ++ ":1") "app:1") g0
  add_vulnerability g1 "app:1"
    { cve_id := "CVE-5", severity := .critical, discovery_date := 0,
      patch_available := true, exploit_probability := 1/2 }

/-- A diamond: the initial component "a:1" spreads to "b:1" and "c:1", both
direct predecessors of the shared dependent "d:1". -/
def gC10 : DependencyGraph :=
  let g := add_component (add_component (add_component (add_component {}
    (mk_component "a" "1" .application 10))
    (mk_component "b" "1" .library 10))
    (mk_component "c" "1" .library 10))
    (mk_component "d" "1" .library 10)
  add_dependency (add_dependency (add_dependency (add_dependency g
    "b:1" "a:1") "c:1" "a:1") "d:1" "b:1") "d:1" "c:1"

/-- The all-zero draw stream: every uniform draw is 0 (a value in [0, 1)). -/
def zero_draws : ℕ → ℚ := fun _ => 0

/-- The vulnerability table of the C1 counterexample: one vulnerability
attached to "d:1" with exploit probability 1/2. -/
def vulnsC1 : List (String × Vulnerability) :=
  [("d:1:CVE-1", { cve_id := "CVE-1", severity := .high, discovery_date := 0,
                   patch_available := true, exploit_probability := 1/2 })]

/-- A source compromised at time 0. -/
def srcC1 : SoftwareComponent :=
  { mk_component "s" "1" .library 5 with is_compromised := true,
                                         compromise_time := some 0 }

/-- The dependent of the C1 counterexample: criticality 10. -/
def depC1 : SoftwareComponent := mk_component "d" "1" .library 10

/-- The application at the centre of the ten-dependent instance. -/
def appC5 : SoftwareComponent := mk_component "app" "1" .application 10

/-- An unpatched (zero-day) vulnerability discovered at day 5. -/
def vW : Vulnerability :=
  { cve_id := "CVE-W", severity := .high, discovery_date := 5,
    patch_available := false, exploit_probability := 1/4 }

/-- The same vulnerability with a patch available. -/
def vWp : Vulnerability := { vW with patch_available := true }

/-! ## Association-list and fold lemmas -/

theorem dict_get_cons_pos {α : Type} (kv : String × α) (t : List (String × α))
    (k : String) (h : (kv.1 == k) = true) :
    dict_get (kv :: t) k = some kv.2 := by
  unfold dict_get
  have hf : List.find? (fun kv => kv.1 == k) (kv :: t) = some kv :=
    List.find?_cons_of_pos t h
  rw [hf]
  rfl

theorem dict_get_cons_neg {α : Type} (kv : String × α) (t : List (String × α))
    (k : String) (h : (kv.1 == k) = false) :
    dict_get (kv :: t) k = dict_get t k := by
  unfold dict_get
  have hf : List.find? (fun kv => kv.1 == k) (kv :: t) =
      List.find? (fun kv => kv.1 == k) t :=
    List.find?_cons_of_neg t (by simp [h])
  rw [hf]

theorem dict_get_map_entry {α β : Type} (f : String → α → β) :
    ∀ (l : List (String × α)) (cid : String) (c : α),
      dict_get l cid = some c →
      dict_get (l.map (fun kv => (kv.1, f kv.1 kv.2))) cid = some (f cid c) := by
  intro l
  induction l with
  | nil => intro cid c h; simp [dict_get] at h
  | cons kv t ih =>
      intro cid c h
      rw [List.map_cons]
      by_cases hk : (kv.1 == cid) = true
      · rw [dict_get_cons_pos kv t cid hk] at h
        have hc : kv.2 = c := Option.some.inj h
        rw [dict_get_cons_pos (kv.1, f kv.1 kv.2) _ cid (by exact hk)]
        rw [eq_of_beq hk, hc]
      · have hk' : (kv.1 == cid) = false := by
          exact Bool.not_eq_true _ ▸ eq_false_of_ne_true hk
        rw [dict_get_cons_neg kv t cid hk'] at h
        rw [dict_get_cons_neg (kv.1, f kv.1 kv.2) _ cid (by exact hk')]
        exact ih cid c h

theorem dict_get_map_cond {α : Type} (upd : α → α) :
    ∀ (l : List (String × α)) (cid : String) (c : α),
      dict_get l cid = some c →
      dict_get (l.map (fun kv => if kv.1 == cid then (kv.1, upd kv.2) else kv))
        cid = some (upd c) := by
  intro l
  induction l with
  | nil => intro cid c h; simp [dict_get] at h
  | cons kv t ih =>
      intro cid c h
      rw [List.map_cons]
      by_cases hk : (kv.1 == cid) = true
      · rw [dict_get_cons_pos kv t cid hk] at h
        have hc : kv.2 = c := Option.some.inj h
        rw [if_pos hk]
        rw [dict_get_cons_pos (kv.1, upd kv.2) _ cid (by exact hk)]
        rw [hc]
      · have hk' : (kv.1 == cid) = false := by
          exact Bool.not_eq_true _ ▸ eq_false_of_ne_true hk
        rw [dict_get_cons_neg kv t cid hk'] at h
        rw [if_neg (by simp [hk'])]
        rw [dict_get_cons_neg kv _ cid hk']
        exact ih cid c h

theorem dict_get_some_length_pos {α : Type} (l : List (String × α)) (k : String)
    (c : α) (h : dict_get l k = some c) : 0 < l.length := by
  cases l with
  | nil => simp [dict_get] at h
  | cons kv t => simp

theorem foldl_if_filter {α β γ : Type} (p : α → Bool) (f : α → β)
    (op : γ → β → γ) :
    ∀ (l : List α) (a : γ),
      l.foldl (fun acc x => if p x then op acc (f x) else acc) a =
        ((l.filter p).map f).foldl op a := by
  intro l
  induction l with
  | nil => intro a; rfl
  | cons x t ih =>
      intro a
      by_cases hp : p x = true
      · simp [List.filter_cons, hp, List.foldl, ih]
      · simp only [Bool.not_eq_true] at hp
        simp [List.filter_cons, hp, List.foldl, ih]

theorem foldl_append_singleton {β : Type} :
    ∀ (l : List β) (init : List β),
      l.foldl (fun w b => w ++ [b]) init = init ++ l := by
  intro l
  induction l with
  | nil => intro init; simp
  | cons x t ih => intro init; simp [List.foldl, ih]

theorem base_risk_of_bounds (t : SoftwareType) :
    0 ≤ base_risk_of t ∧ base_risk_of t ≤ 9 := by
  cases t <;> exact ⟨by with_unfolding_all decide, by with_unfolding_all decide⟩

theorem dependency_risk_of_bounds (g : DependencyGraph) (cid : String) :
    0 ≤ dependency_risk_of g cid ∧ dependency_risk_of g cid ≤ 10 := by
  unfold dependency_risk_of
  constructor
  · exact le_min (by norm_num) (Nat.cast_nonneg _)
  · exact min_le_left _ _

theorem strContains_of_prefix (cid k : String)
    (h : decide ((cid ++ ":").data <+: k.data) = true) :
    strContains cid k = true := by
  unfold strContains
  have h' := of_decide_eq_true h
  rw [String.data_append] at h'
  have h1 : cid.data <+: cid.data ++ (":" : String).data := List.prefix_append _ _
  exact decide_eq_true (h1.trans h').isInfix

theorem foldl_max_le (B : ℚ) :
    ∀ (l : List ℚ) (a : ℚ), (∀ x ∈ l, x ≤ B) → a ≤ B →
      l.foldl max a ≤ B := by
  intro l
  induction l with
  | nil => intro a _ ha; exact ha
  | cons x t ih =>
      intro a h ha
      exact ih (max a x) (fun y hy => h y (List.mem_cons_of_mem _ hy))
        (max_le ha (h x (List.mem_cons_self _ _)))

theorem le_foldl_max :
    ∀ (l : List ℚ) (a : ℚ), a ≤ l.foldl max a := by
  intro l
  induction l with
  | nil => intro a; exact le_refl a
  | cons x t ih =>
      intro a
      exact le_trans (le_max_left a x) (ih (max a x))

theorem mem_le_foldl_max :
    ∀ (l : List ℚ) (a : ℚ) (x : ℚ), x ∈ l → x ≤ l.foldl max a := by
  intro l
  induction l with
  | nil => intro a x hx; simp at hx
  | cons y t ih =>
      intro a x hx
      rcases List.mem_cons.mp hx with h | h
      · subst h
        exact le_trans (le_max_right a x) (le_foldl_max t (max a x))
      · exact ih (max a y) x h

/-! ## Breadth-first search lemmas -/

theorem addNew_isPrefix (acc : List String) (s : String) : acc <+: addNew acc s := by
  unfold addNew
  by_cases h : s ∈ acc
  · rw [if_pos h]
  · rw [if_neg h]
    exact ⟨[s], rfl⟩

theorem foldl_isPrefix {β : Type} (f : List String → β → List String)
    (hf : ∀ acc s, acc <+: f acc s) :
    ∀ (l : List β) (acc : List String), acc <+: l.foldl f acc := by
  intro l
  induction l with
  | nil => intro acc; exact List.prefix_refl acc
  | cons x t ih =>
      intro acc
      exact List.IsPrefix.trans (hf acc x) (ih (f acc x))

theorem expandOnce_isPrefix (next : String → List String) (visited : List String) :
    visited <+: expandOnce next visited := by
  unfold expandOnce
  exact foldl_isPrefix _ (fun acc v => foldl_isPrefix _ addNew_isPrefix (next v) acc)
    visited visited

theorem visitedAfter_isPrefix_succ (next : String → List String) (s : String)
    (d : ℕ) : visitedAfter next s d <+: visitedAfter next s (d + 1) := by
  exact expandOnce_isPrefix next (visitedAfter next s d)

theorem visitedAfter_isPrefix_le (next : String → List String) (s : String)
    (d d' : ℕ) (h : d ≤ d') :
    visitedAfter next s d <+: visitedAfter next s d' := by
  induction d', h using Nat.le_induction with
  | base => exact List.prefix_refl _
  | succ e _ ih => exact List.IsPrefix.trans ih (visitedAfter_isPrefix_succ next s e)

theorem mem_foldl_addNew_of_mem_acc :
    ∀ (l : List String) (acc : List String) (x : String),
      x ∈ acc → x ∈ l.foldl addNew acc := by
  intro l acc x hx
  exact (foldl_isPrefix _ addNew_isPrefix l acc).subset hx

theorem mem_foldl_addNew_of_mem :
    ∀ (l : List String) (acc : List String) (x : String),
      x ∈ l → x ∈ l.foldl addNew acc := by
  intro l
  induction l with
  | nil => intro acc x hx; simp at hx
  | cons y t ih =>
      intro acc x hx
      rcases List.mem_cons.mp hx with h | h
      · subst h
        rw [List.foldl_cons]
        apply mem_foldl_addNew_of_mem_acc
        unfold addNew
        by_cases hy : x ∈ acc
        · rw [if_pos hy]; exact hy
        · rw [if_neg hy]; exact List.mem_append_right acc (List.mem_singleton.mpr rfl)
      · exact ih (addNew acc y) x h

theorem mem_expandOnce_of_next (next : String → List String)
    (visited : List String) (v x : String) (hv : v ∈ visited)
    (hx : x ∈ next v) : x ∈ expandOnce next visited := by
  unfold expandOnce
  have main : ∀ (l : List String) (acc : List String), v ∈ l →
      x ∈ l.foldl (fun acc v => (next v).foldl addNew acc) acc := by
    intro l
    induction l with
    | nil => intro acc hl; simp at hl
    | cons y t ih =>
        intro acc hl
        rcases List.mem_cons.mp hl with h | h
        · subst h
          apply (foldl_isPrefix _ (fun a s => foldl_isPrefix _ addNew_isPrefix (next s) a) t _).subset
          exact mem_foldl_addNew_of_mem (next v) acc x hx
        · exact ih ((next y).foldl addNew acc) h
  exact main visited visited hv

theorem mem_foldl_addNew_cases :
    ∀ (l : List String) (acc : List String) (x : String),
      x ∈ l.foldl addNew acc → x ∈ acc ∨ x ∈ l := by
  intro l
  induction l with
  | nil => intro acc x hx; exact Or.inl hx
  | cons y t ih =>
      intro acc x hx
      rcases ih (addNew acc y) x hx with h | h
      · unfold addNew at h
        by_cases hy : y ∈ acc
        · rw [if_pos hy] at h; exact Or.inl h
        · rw [if_neg hy] at h
          rcases List.mem_append.mp h with h' | h'
          · exact Or.inl h'
          · exact Or.inr (List.mem_cons.mpr (Or.inl (List.mem_singleton.mp h')))
      · exact Or.inr (List.mem_cons_of_mem y h)

theorem mem_expandOnce_cases (next : String → List String)
    (visited : List String) (x : String) (hx : x ∈ expandOnce next visited) :
    x ∈ visited ∨ ∃ v ∈ visited, x ∈ next v := by
  unfold expandOnce at hx
  have main : ∀ (l : List String) (acc : List String),
      x ∈ l.foldl (fun acc v => (next v).foldl addNew acc) acc →
      x ∈ acc ∨ ∃ v ∈ l, x ∈ next v := by
    intro l
    induction l with
    | nil => intro acc h; exact Or.inl h
    | cons y t ih =>
        intro acc h
        rcases ih ((next y).foldl addNew acc) h with h' | h'
        · rcases mem_foldl_addNew_cases (next y) acc x h' with h'' | h''
          · exact Or.inl h''
          · exact Or.inr ⟨y, List.mem_cons_self y t, h''⟩
        · rcases h' with ⟨v, hv, hxv⟩
          exact Or.inr ⟨v, List.mem_cons_of_mem y hv, hxv⟩
  rcases main visited visited hx with h | h
  · exact Or.inl h
  · exact Or.inr h

theorem addNew_nodup (acc : List String) (s : String) (h : acc.Nodup) :
    (addNew acc s).Nodup := by
  unfold addNew
  by_cases hs : s ∈ acc
  · rw [if_pos hs]; exact h
  · rw [if_neg hs]
    rw [List.nodup_append]
    exact ⟨h, List.nodup_singleton s, by simpa using hs⟩

theorem foldl_addNew_nodup :
    ∀ (l : List String) (acc : List String), acc.Nodup →
      (l.foldl addNew acc).Nodup := by
  intro l
  induction l with
  | nil => intro acc h; exact h
  | cons y t ih => intro acc h; exact ih (addNew acc y) (addNew_nodup acc y h)

theorem expandOnce_nodup (next : String → List String) (visited : List String)
    (h : visited.Nodup) : (expandOnce next visited).Nodup := by
  unfold expandOnce
  have main : ∀ (l : List String) (acc : List String), acc.Nodup →
      (l.foldl (fun acc v => (next v).foldl addNew acc) acc).Nodup := by
    intro l
    induction l with
    | nil => intro acc h'; exact h'
    | cons y t ih =>
        intro acc h'
        exact ih ((next y).foldl addNew acc) (foldl_addNew_nodup (next y) acc h')
  exact main visited visited h

theorem visitedAfter_nodup (next : String → List String) (s : String) :
    ∀ d : ℕ, (visitedAfter next s d).Nodup := by
  intro d
  induction d with
  | zero => exact List.nodup_singleton s
  | succ e ih => exact expandOnce_nodup next _ ih

theorem visitedAfter_subset_univ (next : String → List String) (s : String)
    (univ : List String) (hs : s ∈ univ)
    (hnext : ∀ v x, x ∈ next v → x ∈ univ) :
    ∀ d : ℕ, ∀ x ∈ visitedAfter next s d, x ∈ univ := by
  intro d
  induction d with
  | zero =>
      intro x hx
      rw [List.mem_singleton.mp hx]
      exact hs
  | succ e ih =>
      intro x hx
      rcases mem_expandOnce_cases next _ x hx with h | h
      · exact ih x h
      · rcases h with ⟨v, _, hxv⟩
        exact hnext v x hxv

theorem visitedAfter_stable_of_fix (next : String → List String) (s : String)
    (d : ℕ) (hfix : visitedAfter next s (d + 1) = visitedAfter next s d) :
    ∀ e : ℕ, d ≤ e → visitedAfter next s e = visitedAfter next s d := by
  intro e he
  induction e, he using Nat.le_induction with
  | base => rfl
  | succ k _ ih =>
      show expandOnce next (visitedAfter next s k) = visitedAfter next s d
      rw [ih]
      exact hfix

theorem visitedAfter_length_lt (next : String → List String) (s : String)
    (d : ℕ) (hne : visitedAfter next s (d + 1) ≠ visitedAfter next s d) :
    (visitedAfter next s d).length < (visitedAfter next s (d + 1)).length := by
  have hp := visitedAfter_isPrefix_succ next s d
  rcases Nat.lt_or_ge (visitedAfter next s d).length
    (visitedAfter next s (d + 1)).length with h | h
  · exact h
  · exact absurd (List.IsPrefix.eq_of_length hp
      (Nat.le_antisymm (List.IsPrefix.length_le hp) h)).symm hne

theorem visitedAfter_length_lower (next : String → List String) (s : String) :
    ∀ k : ℕ, (∀ e < k, visitedAfter next s (e + 1) ≠ visitedAfter next s e) →
      k + 1 ≤ (visitedAfter next s k).length := by
  intro k
  induction k with
  | zero => intro _; simp [visitedAfter]
  | succ e ih =>
      intro h
      have h1 : e + 1 ≤ (visitedAfter next s e).length :=
        ih (fun e' he' => h e' (Nat.lt_trans he' (Nat.lt_succ_self e)))
      have h2 := visitedAfter_length_lt next s e (h e (Nat.lt_succ_self e))
      omega

theorem visitedAfter_stable (next : String → List String) (s : String)
    (univ : List String) (hs : s ∈ univ)
    (hnext : ∀ v x, x ∈ next v → x ∈ univ) :
    ∀ d : ℕ, univ.length ≤ d →
      visitedAfter next s d = visitedAfter next s univ.length := by
  have hfix : ∃ e < univ.length,
      visitedAfter next s (e + 1) = visitedAfter next s e := by
    by_contra hno
    push_neg at hno
    have h1 := visitedAfter_length_lower next s univ.length hno
    have h2 : (visitedAfter next s univ.length).length ≤ univ.length := by
      have hnd := visitedAfter_nodup next s univ.length
      have hsub : visitedAfter next s univ.length ⊆ univ := by
        intro x hx
        exact visitedAfter_subset_univ next s univ hs hnext univ.length x hx
      exact (List.Nodup.subperm hnd hsub).length_le
    omega
  rcases hfix with ⟨e, he, hfixe⟩
  intro d hd
  have h1 := visitedAfter_stable_of_fix next s e hfixe d
    (Nat.le_trans (Nat.le_of_lt he) hd)
  have h2 := visitedAfter_stable_of_fix next s e hfixe univ.length
    (Nat.le_of_lt he)
  rw [h1, h2]

/-! ## Simulation-run lemmas -/

theorem day_step_snd (g : DependencyGraph) (t0 : ℤ) (dp : ℚ) (draws : ℕ → ℚ)
    (acc : SimState × List String) (day : ℕ) :
    (day_step g t0 dp draws acc day).2 =
      acc.2 ++ (acc.2.foldl (process_source g t0 day draws acc.2) (acc.1, [])).2 :=
  rfl

theorem foldl_day_step_ext (g : DependencyGraph) (t0 : ℤ) (dp : ℚ)
    (draws : ℕ → ℚ) :
    ∀ (ds : List ℕ) (acc : SimState × List String),
      ∃ l, (ds.foldl (day_step g t0 dp draws) acc).2 = acc.2 ++ l := by
  intro ds
  induction ds with
  | nil => intro acc; exact ⟨[], (List.append_nil acc.2).symm⟩
  | cons d t ih =>
      intro acc
      rcases ih (day_step g t0 dp draws acc d) with ⟨l2, h2⟩
      refine ⟨(acc.2.foldl (process_source g t0 d draws acc.2) (acc.1, [])).2 ++ l2, ?_⟩
      rw [List.foldl_cons, h2, day_step_snd, List.append_assoc]

theorem simulate_attack_run_snd (g : DependencyGraph) (t0 : ℤ) (draws : ℕ → ℚ)
    (idx0 : ℕ) (initial : String) (days : ℕ) (dp : ℚ) :
    ∃ l, (simulate_attack_run g t0 draws idx0 initial days dp).2 = initial :: l := by
  rcases foldl_day_step_ext g t0 dp draws (List.range days)
    ({ comps := set_compromised (reset_components g.components) initial t0,
       timeline := [], detections := [], idx := idx0 }, [initial]) with ⟨l, h⟩
  exact ⟨l, h⟩

theorem simulate_attack_run_count_pos (g : DependencyGraph) (t0 : ℤ)
    (draws : ℕ → ℚ) (idx0 : ℕ) (initial : String) (days : ℕ) (dp : ℚ) :
    1 ≤ (simulate_attack_run g t0 draws idx0 initial days dp).2.length := by
  rcases simulate_attack_run_snd g t0 draws idx0 initial days dp with ⟨l, h⟩
  rw [h]
  simp

theorem vulnerable_window_of_eq (pt : List (String × ℤ)) :
    ∀ (tl : List TimelineEvent),
      vulnerable_window_of tl pt =
        ((tl.filter (fun e => decide ((e.day : ℤ) < (dict_get pt e.component_id).getD 0))).map
          (fun e =>
            ({ component_id := e.component_id, component_name := e.component_name,
               compromise_day := e.day,
               patch_day := (dict_get pt e.component_id).getD 0,
               vulnerability_window :=
                 (dict_get pt e.component_id).getD 0 - e.day } : WindowEntry))) := by
  have main : ∀ (tl : List TimelineEvent) (init : List WindowEntry),
      tl.foldl (fun w e =>
        let patch_day := (dict_get pt e.component_id).getD 0
        if (e.day : ℤ) < patch_day then
          w ++ [{ component_id := e.component_id,
                  component_name := e.component_name,
                  compromise_day := e.day, patch_day := patch_day,
                  vulnerability_window := patch_day - e.day }]
        else w) init =
      init ++ ((tl.filter (fun e =>
        decide ((e.day : ℤ) < (dict_get pt e.component_id).getD 0))).map
          (fun e =>
            ({ component_id := e.component_id,
               component_name := e.component_name,
               compromise_day := e.day,
               patch_day := (dict_get pt e.component_id).getD 0,
               vulnerability_window :=
                 (dict_get pt e.component_id).getD 0 - e.day } : WindowEntry))) := by
    intro tl
    induction tl with
    | nil => intro init; simp
    | cons e t ih =>
        intro init
        rw [List.foldl_cons, List.filter_cons]
        by_cases h : (e.day : ℤ) < (dict_get pt e.component_id).getD 0
        · dsimp only
          rw [if_pos h, ih]
          simp [h]
        · dsimp only
          rw [if_neg h, ih]
          simp [h]
  intro tl
  exact main tl []

theorem impact_foldl (comps : List (String × SoftwareComponent)) :
    ∀ (l : List String) (a : ℚ),
      l.foldl (fun acc d =>
        match dict_get comps d with
        | none => acc
        | some dep => acc + dep.criticality_score * (1/2)) a =
      a + ((l.filterMap (fun d => dict_get comps d)).map
        (fun dep => dep.criticality_score * (1/2))).sum := by
  intro l
  induction l with
  | nil => intro a; simp
  | cons d t ih =>
      intro a
      rw [List.foldl_cons, List.filterMap_cons]
      cases h : dict_get comps d with
      | none => dsimp only; rw [ih]
      | some dep =>
          dsimp only
          rw [ih]
          simp [add_assoc]

theorem foldl_race_step_inv (g : DependencyGraph) (t0 : ℤ) (draws : ℕ → ℚ)
    (initial : String) (days : ℕ) (dp : ℚ)
    (Q : OrgType × OrgRaceResult → Prop)
    (hQ : ∀ (idx : ℕ) (org : OrgType),
      Q (org, org_race_result
        (attack_result_of g initial days
          (simulate_attack_run g t0 draws idx initial days dp))
        (patching_timeline_of g org draws
          (simulate_attack_run g t0 draws idx initial days dp).1.idx).1)) :
    ∀ (orgs : List OrgType) (acc : List (OrgType × OrgRaceResult) × ℕ),
      (∀ e ∈ acc.1, Q e) →
      ∀ e ∈ (orgs.foldl (race_step g t0 draws initial days dp) acc).1, Q e := by
  intro orgs
  induction orgs with
  | nil => intro acc hacc e he; exact hacc e he
  | cons org t ih =>
      intro acc hacc e he
      rw [List.foldl_cons] at he
      refine ih (race_step g t0 draws initial days dp acc org) ?_ e he
      intro e' he'
      rcases List.mem_append.mp he' with h | h
      · exact hacc e' h
      · rw [List.mem_singleton.mp h]
        exact hQ acc.2 org

/-! ## Claim theorems -/

/-- C2: for every component present in the store, `add_vulnerability` with
`patch_available = false` immediately sets the component's compromise flag
and sets its compromise time to the vulnerability's discovery date; with
`patch_available = true` it leaves the components table entirely unchanged;
and for an absent component the call is a complete no-op. -/
theorem C2_zero_day_invariant (g : DependencyGraph) (cid : String)
    (v : Vulnerability) :
    (∀ c, dict_get g.components cid = some c →
      (v.patch_available = false →
        dict_get (add_vulnerability g cid v).components cid =
          some { c with is_compromised := true,
                        compromise_time := some v.discovery_date }) ∧
      (v.patch_available = true →
        (add_vulnerability g cid v).components = g.components)) ∧
    (dict_get g.components cid = none → add_vulnerability g cid v = g) := by
  constructor
  · intro c hc
    constructor
    · intro hpatch
      unfold add_vulnerability
      rw [hc]
      simp only [Option.isSome_some, if_true, hpatch]
      simp only [Bool.false_eq_true, not_false_eq_true, if_true]
      exact dict_get_map_cond
        (fun x => { x with is_compromised := true,
                           compromise_time := some v.discovery_date })
        g.components cid c hc
    · intro hpatch
      unfold add_vulnerability
      rw [hc]
      simp [hpatch]
  · intro hc
    unfold add_vulnerability
    rw [hc]
    simp

/-- C2 witness: on the one-component store, attaching the unpatched
vulnerability `vW` to "a:1" compromises it at day 5, attaching the patched
variant `vWp` changes no component, and attaching to an unknown id is a
no-op. -/
theorem C2_zero_day_invariant_witness :
    dict_get (add_vulnerability gW "a:1" vW).components "a:1" =
      some { mk_component "a" "1" .application 10 with
               is_compromised := true, compromise_time := some 5 } ∧
    (add_vulnerability gW "a:1" vWp).components = gW.components ∧
    add_vulnerability gW "zz:1" vW = gW := by
  refine ⟨?_, ?_, ?_⟩
  · exact ((C2_zero_day_invariant gW "a:1" vW).1
      (mk_component "a" "1" .application 10) (by decide)).1 rfl
  · exact ((C2_zero_day_invariant gW "a:1" vWp).1
      (mk_component "a" "1" .application 10) (by decide)).2 rfl
  · exact (C2_zero_day_invariant gW "zz:1" vW).2 (by decide)

/-- C7: every query on an unknown component id returns an empty or zero
result without raising (`get_dependencies` and `get_dependents` return an
empty list in both modes, `calculate_impact_score` returns 0), while
`simulate_attack_propagation` from an unknown initial component returns the
descriptive error. -/
theorem C7_unknown_component_soft_fail (g : DependencyGraph) (id : String)
    (h : dict_get g.components id = none) :
    get_dependencies g id true = [] ∧ get_dependencies g id false = [] ∧
    get_dependents g id true = [] ∧ get_dependents g id false = [] ∧
    calculate_impact_score g id = 0 ∧
    ∀ (t0 : ℤ) (draws : ℕ → ℚ) (idx0 : ℕ) (days : ℕ) (dp : ℚ),
      simulate_attack_propagation g t0 draws idx0 id days dp =
        .error ("Component " ++ id ++ " not found") := by
  refine ⟨?_, ?_, ?_, ?_, ?_, ?_⟩
  · unfold get_dependencies; rw [h]; rfl
  · unfold get_dependencies; rw [h]; rfl
  · unfold get_dependents; rw [h]; rfl
  · unfold get_dependents; rw [h]; rfl
  · unfold calculate_impact_score; rw [h]
  · intro t0 draws idx0 days dp
    unfold simulate_attack_propagation
    rw [h]

/-- C7 witness: the queries on the id "zz:1", absent from the
one-component store, all soft-fail, and the simulation raises. -/
theorem C7_unknown_component_soft_fail_witness :
    get_dependencies gW "zz:1" true = [] ∧
    get_dependencies gW "zz:1" false = [] ∧
    get_dependents gW "zz:1" true = [] ∧
    get_dependents gW "zz:1" false = [] ∧
    calculate_impact_score gW "zz:1" = 0 ∧
    simulate_attack_propagation gW 0 zero_draws 0 "zz:1" 30 (1/10) =
      .error ("Component " ++ "zz:1" ++ " not found") := by
  have h := C7_unknown_component_soft_fail gW "zz:1" (by decide)
  exact ⟨h.1, h.2.1, h.2.2.1, h.2.2.2.1, h.2.2.2.2.1,
    h.2.2.2.2.2 0 zero_draws 0 30 (1/10)⟩

/-- C4 counterexample: on the chain A(10) → B(5) → C(2) of the claim's
end-to-end scenario, `calculate_impact_score(C)` is 9.5
(2 + 5·0.5 + 10·0.5), not the claimed 9.0. -/
theorem C4_impact_score_counterexample :
    calculate_impact_score gC4 "c:1" = 19/2 ∧ ((19 : ℚ)/2) ≠ 9 := by
  constructor
  · with_unfolding_all decide
  · norm_num

/-- C4 (amended): for every component in the store,
`calculate_impact_score` is its own criticality plus the sum of half the
criticality of every transitive dependent, with the 0.5 factor flat
regardless of hop distance; 0 for an unknown id; and on the chain
A(10) → B(5) → C(2) the score of C is 9.5. -/
theorem C4_impact_score (g : DependencyGraph) (id : String) :
    ((dict_get g.components id = none → calculate_impact_score g id = 0) ∧
     ∀ c, dict_get g.components id = some c →
       calculate_impact_score g id =
         c.criticality_score +
           (((get_dependents g id false).filterMap
               (fun d => dict_get g.components d)).map
             (fun dep => dep.criticality_score * (1/2))).sum) ∧
    calculate_impact_score gC4 "c:1" = 19/2 := by
  refine ⟨⟨?_, ?_⟩, by with_unfolding_all decide⟩
  · intro h
    unfold calculate_impact_score
    rw [h]
  · intro c h
    unfold calculate_impact_score
    rw [h]
    exact impact_foldl g.components (get_dependents g id false) c.criticality_score

/-- C4 witness: on the concrete chain, the formula of the amended claim
evaluates at C to its criticality 2 plus 2.5 + 5 from B and A. -/
theorem C4_impact_score_witness :
    calculate_impact_score gC4 "c:1" =
      (mk_component "c" "1" .library 2).criticality_score +
        (((get_dependents gC4 "c:1" false).filterMap
            (fun d => dict_get gC4.components d)).map
          (fun dep => dep.criticality_score * (1/2))).sum :=
  (C4_impact_score gC4 "c:1").1.2 (mk_component "c" "1" .library 2) (by decide)

/-- C3 counterexample: in the store holding components "b:1" and "ab:1"
with one critical vulnerability attached to "ab:1" only, the
vulnerability-risk sub-score computed for "b:1" is 10 — the substring test
`comp_id in vuln_key` also matches the key "ab:1:CVE-9" — while the claimed
maximum over the vulnerabilities attached to "b:1" is 0. -/
theorem C3_vuln_risk_counterexample :
    (dict_get (component_risks gC3) "b:1").map (fun e => e.vulnerability_risk) =
      some 10 ∧
    claimed_vuln_risk gC3 "b:1" = 0 ∧ ((10 : ℚ) ≠ 0) := by
  refine ⟨?_, ?_, by norm_num⟩
  · with_unfolding_all decide
  · with_unfolding_all decide

/-- C3 (amended): the vulnerability-risk sub-score of a component equals the
maximum of the severity-to-score map (critical=10, high=7, medium=4, low=1)
over the vulnerabilities whose composite key contains the component's id as
a substring — a superset of those attached to the component, so the claimed
attached-only maximum never exceeds it — and equals 0 when no key matches. -/
theorem C3_vuln_risk (g : DependencyGraph) (cid : String)
    (c : SoftwareComponent) (h : dict_get g.components cid = some c) :
    dict_get (component_risks g) cid = some (component_risk g cid c) ∧
    (component_risk g cid c).vulnerability_risk =
      ((g.vulnerabilities.filter (fun kv => strContains cid kv.1)).map
        (fun kv => severity_scores kv.2.severity)).foldl max 0 ∧
    claimed_vuln_risk g cid ≤ (component_risk g cid c).vulnerability_risk ∧
    ((g.vulnerabilities.filter (fun kv => strContains cid kv.1)) = [] →
      (component_risk g cid c).vulnerability_risk = 0) := by
  have hmain : (component_risk g cid c).vulnerability_risk =
      ((g.vulnerabilities.filter (fun kv => strContains cid kv.1)).map
        (fun kv => severity_scores kv.2.severity)).foldl max 0 := by
    show vuln_risk_of g cid = _
    unfold vuln_risk_of
    exact foldl_if_filter (fun kv => strContains cid kv.1)
      (fun kv => severity_scores kv.2.severity) max g.vulnerabilities 0
  refine ⟨?_, hmain, ?_, ?_⟩
  · exact dict_get_map_entry (fun k v => component_risk g k v) g.components cid c h
  · rw [hmain]
    unfold claimed_vuln_risk
    apply foldl_max_le
    · intro x hx
      rcases List.mem_map.mp hx with ⟨kv, hkv, hxe⟩
      rcases List.mem_filter.mp hkv with ⟨hmem, hpre⟩
      apply mem_le_foldl_max
      exact List.mem_map.mpr ⟨kv, List.mem_filter.mpr
        ⟨hmem, strContains_of_prefix cid kv.1 hpre⟩, hxe⟩
    · exact le_foldl_max _ 0
  · intro hempty
    rw [hmain, hempty]
    rfl

/-- C3 witness: on the two-component store, the sub-score of "ab:1" (which
carries the critical vulnerability) dominates the claimed attached-only
maximum. -/
theorem C3_vuln_risk_witness :
    claimed_vuln_risk gC3 "ab:1" ≤
      (component_risk gC3 "ab:1" (mk_component "ab" "1" .library 1)).vulnerability_risk :=
  (C3_vuln_risk gC3 "ab:1" (mk_component "ab" "1" .library 1)
    (by with_unfolding_all decide)).2.2.1

/-- C5: the compound risk score of a component in the store is
`0.30·base + 0.25·criticality + 0.25·dependency + 0.20·vulnerability`, with
base the fixed type lookup (application=9, database=9, operating_system=8,
service=8, framework=7, library=6, utility=5) and dependency
`min(10, unbounded dependent count)`; when the criticality and vulnerability
sub-scores are in [0,10] the compound score is in [0,10]; and for the
application of criticality 10 with a critical vulnerability and ten
dependents it is 9.7. -/
theorem C5_compound_risk (g : DependencyGraph) (cid : String)
    (c : SoftwareComponent) (h : dict_get g.components cid = some c)
    (hc0 : 0 ≤ c.criticality_score) (hc10 : c.criticality_score ≤ 10)
    (hv0 : 0 ≤ vuln_risk_of g cid) (hv10 : vuln_risk_of g cid ≤ 10) :
    dict_get (component_risks g) cid = some (component_risk g cid c) ∧
    (component_risk g cid c).compound_risk =
      base_risk_of c.software_type * (3/10) + c.criticality_score * (1/4) +
        min 10 ((get_dependents g cid false).length : ℚ) * (1/4) +
        vuln_risk_of g cid * (1/5) ∧
    base_risk_of c.software_type =
      (match c.software_type with
       | .application => 9 | .database => 9 | .operating_system => 8
       | .service => 8 | .framework => 7 | .library => 6 | .utility => 5) ∧
    (0 ≤ (component_risk g cid c).compound_risk ∧
      (component_risk g cid c).compound_risk ≤ 10) ∧
    (dict_get (component_risks gC5) "app:1").map (fun e => e.compound_risk) =
      some (97/10) := by
  have hform : (component_risk g cid c).compound_risk =
      base_risk_of c.software_type * (3/10) + c.criticality_score * (1/4) +
        min 10 ((get_dependents g cid false).length : ℚ) * (1/4) +
        vuln_risk_of g cid * (1/5) := rfl
  refine ⟨?_, hform, ?_, ?_, ?_⟩
  · exact dict_get_map_entry (fun k v => component_risk g k v) g.components cid c h
  · cases c.software_type <;> with_unfolding_all decide
  · rcases base_risk_of_bounds c.software_type with ⟨hb0, hb9⟩
    rcases dependency_risk_of_bounds g cid with ⟨hd0, hd10⟩
    unfold dependency_risk_of at hd0 hd10
    rw [hform]
    constructor
    · have h1 : (0:ℚ) ≤ base_risk_of c.software_type * (3/10) := by positivity
      have h2 : (0:ℚ) ≤ c.criticality_score * (1/4) := by positivity
      have h3 : (0:ℚ) ≤ min 10 ((get_dependents g cid false).length : ℚ) * (1/4) := by
        positivity
      have h4 : (0:ℚ) ≤ vuln_risk_of g cid * (1/5) := by positivity
      linarith
    · linarith
  · with_unfolding_all decide

/-- C5 witness: instantiated on the concrete ten-dependent application. -/
theorem C5_compound_risk_witness :
    0 ≤ (component_risk gC5 "app:1" appC5).compound_risk ∧
    (component_risk gC5 "app:1" appC5).compound_risk ≤ 10 :=
  (C5_compound_risk gC5 "app:1" appC5 (by with_unfolding_all decide)
    (by norm_num [appC5, mk_component]) (by norm_num [appC5, mk_component])
    (by with_unfolding_all decide) (by with_unfolding_all decide)).2.2.2.1

/-- C1 counterexample: for a dependent with criticality 10 carrying one
vulnerability of exploit probability 0.5, seven days after the source's
compromise, the probability the simulator computes is
0.05·1·1·max(1, 0.5) = 1/20, whereas the claimed formula
0.05·1·1·0.5 gives 1/40 — the code's `vuln_factor` starts at 1.0 and takes
a max, so an attached exploit probability below 1 never scales `p` down. -/
theorem C1_compromise_probability_counterexample :
    compromise_probability vulnsC1 0 7 srcC1 depC1 "d:1" = 1/20 ∧
    claimed_compromise_probability vulnsC1 0 7 srcC1 depC1 "d:1" = 1/40 ∧
    ((1 : ℚ)/20) ≠ 1/40 := by
  refine ⟨?_, ?_, by norm_num⟩
  · with_unfolding_all decide
  · with_unfolding_all decide

/-- C1 (amended): in the day loop, for a pair of a compromised source `src`
and a direct dependent not yet in the start-of-day compromised set, the
dependent is compromised — with a timeline event recorded carrying day,
date, component, source and probability — exactly when the uniform draw
falls below `p = 0.05 · min(1, daysSinceSourceCompromise/7) ·
(dependentCriticality/10) · m`, where `m` starts at 1.0 and takes the
maximum with the exploit probabilities of the vulnerabilities whose
composite key contains the dependent's id (so an exploit probability below
1 never lowers `p`). -/
theorem C1_propagation_step (vulns : List (String × Vulnerability)) (t0 : ℤ)
    (day : ℕ) (draws : ℕ → ℚ) (current : List String) (src_id : String)
    (src : SoftwareComponent) (st : SimState) (nc : List String)
    (dependent_id : String) (dep : SoftwareComponent)
    (hcur : dependent_id ∉ current)
    (hdep : dict_get st.comps dependent_id = some dep) :
    process_dependent vulns t0 day draws current src_id src (st, nc)
        dependent_id =
      if draws st.idx <
          (1/20) *
            min 1 ((((t0 + day) - src.compromise_time.getD t0 : ℤ) : ℚ) / 7) *
            (dep.criticality_score / 10) *
            vulns.foldl (fun acc kv =>
              if strContains dependent_id kv.1 then
                max acc kv.2.exploit_probability
              else acc) 1 then
        ({ comps := set_compromised st.comps dependent_id (t0 + day)
           timeline := st.timeline ++
             [{ day := day, date := t0 + day, component_id := dependent_id,
                component_name := dep.name, source_component := src_id,
                compromise_probability := (1/20) *
                  min 1 ((((t0 + day) - src.compromise_time.getD t0 : ℤ) : ℚ) / 7) *
                  (dep.criticality_score / 10) *
                  vulns.foldl (fun acc kv =>
                    if strContains dependent_id kv.1 then
                      max acc kv.2.exploit_probability
                    else acc) 1 }]
           detections := st.detections
           idx := st.idx + 1 },
         if dependent_id ∈ nc then nc else nc ++ [dependent_id])
      else ({ st with idx := st.idx + 1 }, nc) := by
  unfold process_dependent
  rw [if_neg (by exact hcur)]
  have hdep' : dict_get (st, nc).1.comps dependent_id = some dep := hdep
  rw [hdep']
  rfl

/-- C1 witness: on the counterexample data with an all-zero draw stream and
day 7, the draw 0 falls below p = 1/20, so the dependent "d:1" is recorded
as newly compromised. -/
theorem C1_propagation_step_witness :
    (process_dependent vulnsC1 0 7 zero_draws [] "s:1" srcC1
      ({ comps := [("d:1", depC1)], timeline := [], detections := [], idx := 0 },
        []) "d:1").2 = ["d:1"] := by
  rw [C1_propagation_step vulnsC1 0 7 zero_draws [] "s:1" srcC1
    { comps := [("d:1", depC1)], timeline := [], detections := [], idx := 0 }
    [] "d:1" depC1 (by simp) (by with_unfolding_all decide)]
  with_unfolding_all decide

/-- C10: the simulator does not guarantee at most one timeline event per
component.  On the diamond graph (initial "a:1", both "b:1" and "c:1"
compromised on day 1, both direct predecessors of "d:1") with an all-zero
draw stream (each draw in [0,1)) and detection probability 0, day 2 records
two timeline events for "d:1" — one via "b:1" and one via "c:1" — because
the not-yet-compromised test consults only the start-of-day compromised
set. -/
theorem C10_duplicate_timeline_events :
    ((simulate_attack_run gC10 0 zero_draws 0 "a:1" 3 0).1.timeline.filter
        (fun e => e.component_id == "d:1")).length = 2 ∧
    ((simulate_attack_run gC10 0 zero_draws 0 "a:1" 3 0).1.timeline.filter
        (fun e => e.component_id == "d:1")).map
      (fun e => e.source_component) = ["b:1", "c:1"] ∧
    (∀ n : ℕ, 0 ≤ zero_draws n ∧ zero_draws n < 1) := by
  refine ⟨?_, ?_, ?_⟩
  · with_unfolding_all decide
  · with_unfolding_all decide
  · intro n
    exact ⟨le_refl 0, by norm_num [zero_draws]⟩

/-! ## Stabilization of the dependent BFS -/

theorem visitedAfter_succ_stable (g : DependencyGraph) (id : String) :
    ∀ d : ℕ, g.edges.length + 1 ≤ d →
      visitedAfter (successors g) id d =
        visitedAfter (successors g) id (g.edges.length + 1) := by
  have hs : id ∈ id :: g.edges.map (fun e => e.2) := List.mem_cons_self _ _
  have hnext : ∀ v x, x ∈ successors g v →
      x ∈ id :: g.edges.map (fun e => e.2) := by
    intro v x hx
    unfold successors at hx
    rcases List.mem_map.mp hx with ⟨e, he, hex⟩
    exact List.mem_cons_of_mem _ (List.mem_map.mpr
      ⟨e, (List.mem_filter.mp he).1, hex⟩)
  have hlen : (id :: g.edges.map (fun e => e.2)).length = g.edges.length + 1 := by
    simp
  intro d hd
  have h1 := visitedAfter_stable (successors g) id
    (id :: g.edges.map (fun e => e.2)) hs hnext d (by rw [hlen]; exact hd)
  rw [hlen] at h1
  exact h1

theorem bfs_ecc_covers (g : DependencyGraph) (id : String) :
    ∀ x ∈ visitedAfter (successors g) id (g.edges.length + 1),
      x ∈ visitedAfter (successors g) id (bfs_ecc g id) := by
  intro x hx
  unfold bfs_ecc
  cases hL : ((List.range (g.edges.length + 2)).filter (fun d =>
      (visitedAfter (successors g) id (g.edges.length + 1)).all (fun y =>
        (visitedAfter (successors g) id d).contains y))).head? with
  | none =>
      rw [Option.getD_none]
      exact hx
  | some e =>
      rw [Option.getD_some]
      have he : e ∈ (List.range (g.edges.length + 2)).filter (fun d =>
          (visitedAfter (successors g) id (g.edges.length + 1)).all (fun y =>
            (visitedAfter (successors g) id d).contains y)) :=
        List.mem_of_mem_head? (by rw [hL]; rfl)
      have hall := (List.mem_filter.mp he).2
      have hy := (List.all_eq_true.mp hall) x hx
      simpa using hy

/-! ## Claim theorems, continued -/

/-- C6 counterexample: with a component depending on itself, the component
is among its own direct dependents but never in the full descendant closure
(which always excludes the source), so the direct list is not a subset of
the closure. -/
theorem C6_dependents_counterexample :
    "x:1" ∈ get_dependents gC6 "x:1" true ∧
    "x:1" ∉ get_dependents gC6 "x:1" false := by
  constructor
  · with_unfolding_all decide
  · with_unfolding_all decide

/-- C6 (amended): every direct dependent other than the component itself is
in the full descendant closure (a self-dependency puts the component in its
direct list but never in the closure); increasing the depth bound of the
spec-modelled `maxDepth` query is monotonic non-decreasing in result-set
size and result-set membership; and the depth-bounded result coincides with
the unbounded closure whenever the bound is at least the BFS eccentricity
(the graph diameter from the component). -/
theorem C6_dependents_queries :
    (∀ (g : DependencyGraph) (id x : String),
      x ∈ get_dependents g id true → x = id ∨ x ∈ get_dependents g id false) ∧
    (∀ (g : DependencyGraph) (id : String) (d d' : ℕ), d ≤ d' →
      (get_dependents_depth g id d).length ≤
        (get_dependents_depth g id d').length ∧
      ∀ x ∈ get_dependents_depth g id d, x ∈ get_dependents_depth g id d') ∧
    (∀ (g : DependencyGraph) (id : String) (d : ℕ), bfs_ecc g id ≤ d →
      ∀ x, x ∈ get_dependents_depth g id d ↔ x ∈ get_dependents g id false) := by
  refine ⟨?_, ?_, ?_⟩
  · intro g id x hx
    unfold get_dependents at hx ⊢
    by_cases hn : (dict_get g.components id).isNone = true
    · rw [if_pos hn] at hx
      simp at hx
    · rw [if_neg hn] at hx ⊢
      rw [if_pos rfl] at hx
      rw [if_neg (by simp)]
      by_cases hxid : x = id
      · exact Or.inl hxid
      · refine Or.inr ?_
        unfold reachClosure
        refine List.mem_filter.mpr ⟨?_, bne_iff_ne.mpr hxid⟩
        have h1 : x ∈ visitedAfter (successors g) id 1 :=
          mem_expandOnce_of_next (successors g) [id] id x (by simp) hx
        exact (visitedAfter_isPrefix_le (successors g) id 1
          (g.edges.length + 1) (by omega)).subset h1
  · intro g id d d' hdd
    unfold get_dependents_depth
    by_cases hn : (dict_get g.components id).isNone = true
    · rw [if_pos hn, if_pos hn]
      exact ⟨le_refl _, fun x hx => hx⟩
    · rw [if_neg hn, if_neg hn]
      have hp := (visitedAfter_isPrefix_le (successors g) id d d' hdd).filter
        (fun x => x != id)
      exact ⟨hp.length_le, fun x hx => hp.subset hx⟩
  · intro g id d hecc x
    unfold get_dependents_depth get_dependents
    by_cases hn : (dict_get g.components id).isNone = true
    · rw [if_pos hn, if_pos hn]
    · rw [if_neg hn, if_neg hn, if_neg (by simp)]
      unfold reachClosure
      constructor
      · intro hx
        rcases List.mem_filter.mp hx with ⟨hmem, hbn⟩
        refine List.mem_filter.mpr ⟨?_, hbn⟩
        rcases le_total d (g.edges.length + 1) with hle | hge
        · exact (visitedAfter_isPrefix_le (successors g) id d _ hle).subset hmem
        · rw [← visitedAfter_succ_stable g id d hge]
          exact hmem
      · intro hx
        rcases List.mem_filter.mp hx with ⟨hmem, hbn⟩
        refine List.mem_filter.mpr ⟨?_, hbn⟩
        have h1 := bfs_ecc_covers g id x hmem
        exact (visitedAfter_isPrefix_le (successors g) id
          (bfs_ecc g id) d hecc).subset h1

/-- C6 witness: on the chain A → B → C, the direct dependent B of C is in
the closure, the depth-1 result is no larger than the depth-2 result, and
depth 2 (the eccentricity from C) already matches the unbounded closure at
"a:1". -/
theorem C6_dependents_queries_witness :
    ("b:1" = "c:1" ∨ "b:1" ∈ get_dependents gC4 "c:1" false) ∧
    (get_dependents_depth gC4 "c:1" 1).length ≤
      (get_dependents_depth gC4 "c:1" 2).length ∧
    ("a:1" ∈ get_dependents_depth gC4 "c:1" 2 ↔
      "a:1" ∈ get_dependents gC4 "c:1" false) :=
  ⟨C6_dependents_queries.1 gC4 "c:1" "b:1" (by with_unfolding_all decide),
   (C6_dependents_queries.2.1 gC4 "c:1" 1 2 (by norm_num)).1,
   C6_dependents_queries.2.2 gC4 "c:1" 2 (by with_unfolding_all decide) "a:1"⟩

/-- C9: every successful attack simulation on a graph containing the
initial component reports at least one compromised component and a strictly
positive compromise percentage (the initial component is always in the
final compromised set), so in the patching race every per-organization
entry has a positive compromised count and its effectiveness is computed by
the division formula — the compromised-count-zero fallback of
`simulate_patching_race` is unreachable. -/
theorem C9_initial_always_compromised (g : DependencyGraph) (t0 : ℤ)
    (draws : ℕ → ℚ) (idx0 : ℕ) (initial : String) (days : ℕ) (dp : ℚ)
    (r : AttackResult)
    (h : simulate_attack_propagation g t0 draws idx0 initial days dp = .ok r) :
    1 ≤ r.compromised_count ∧ 0 < r.compromise_percentage ∧
    ∀ (orgs : List OrgType) (res : List (OrgType × OrgRaceResult)),
      simulate_patching_race g t0 draws idx0 initial days dp orgs = .ok res →
      ∀ e ∈ res, 0 < e.2.attack_result.compromised_count ∧
        e.2.patch_effectiveness =
          ((e.2.attack_result.compromised_count : ℚ) -
            (e.2.vulnerable_window.length : ℚ)) /
            (e.2.attack_result.compromised_count : ℚ) * 100 := by
  cases hg : dict_get g.components initial with
  | none =>
      unfold simulate_attack_propagation at h
      rw [hg] at h
      exact absurd h (by simp)
  | some c =>
      unfold simulate_attack_propagation at h
      rw [hg] at h
      have hr : attack_result_of g initial days
          (simulate_attack_run g t0 draws idx0 initial days dp) = r :=
        Except.ok.inj h
      have hcount : 1 ≤ r.compromised_count := by
        rw [← hr]
        exact simulate_attack_run_count_pos g t0 draws idx0 initial days dp
      refine ⟨hcount, ?_, ?_⟩
      · rw [← hr]
        show 0 < ((simulate_attack_run g t0 draws idx0 initial days dp).2.length : ℚ) /
          (g.components.length : ℚ) * 100
        have h1 : (0:ℚ) <
            ((simulate_attack_run g t0 draws idx0 initial days dp).2.length : ℚ) := by
          exact_mod_cast Nat.lt_of_lt_of_le Nat.zero_lt_one
            (simulate_attack_run_count_pos g t0 draws idx0 initial days dp)
        have h2 : (0:ℚ) < (g.components.length : ℚ) := by
          exact_mod_cast dict_get_some_length_pos g.components initial c hg
        have h3 : (0:ℚ) <
            ((simulate_attack_run g t0 draws idx0 initial days dp).2.length : ℚ) /
            (g.components.length : ℚ) := div_pos h1 h2
        linarith
      · intro orgs res hres e he
        unfold simulate_patching_race at hres
        rw [hg] at hres
        have hres' : (orgs.foldl (race_step g t0 draws initial days dp)
            ([], idx0)).1 = res := Except.ok.inj hres
        rw [← hres'] at he
        refine foldl_race_step_inv g t0 draws initial days dp
          (fun e => 0 < e.2.attack_result.compromised_count ∧
            e.2.patch_effectiveness =
              ((e.2.attack_result.compromised_count : ℚ) -
                (e.2.vulnerable_window.length : ℚ)) /
                (e.2.attack_result.compromised_count : ℚ) * 100)
          ?_ orgs ([], idx0) (by intro e' he'; simp at he') e he
        intro idx org
        have hc : 0 < (attack_result_of g initial days
            (simulate_attack_run g t0 draws idx initial days dp)).compromised_count :=
          Nat.lt_of_lt_of_le Nat.zero_lt_one
            (simulate_attack_run_count_pos g t0 draws idx initial days dp)
        refine ⟨hc, ?_⟩
        show (org_race_result _ _).patch_effectiveness = _
        unfold org_race_result
        dsimp only
        rw [if_pos hc]

/-- C9 witness: on the one-component store over one day, the run reports a
compromised count of 1 and a positive percentage. -/
theorem C9_initial_always_compromised_witness :
    1 ≤ (attack_result_of gW "a:1" 1
      (simulate_attack_run gW 0 zero_draws 0 "a:1" 1 0)).compromised_count ∧
    0 < (attack_result_of gW "a:1" 1
      (simulate_attack_run gW 0 zero_draws 0 "a:1" 1 0)).compromise_percentage := by
  have h := C9_initial_always_compromised gW 0 zero_draws 0 "a:1" 1 0
    (attack_result_of gW "a:1" 1 (simulate_attack_run gW 0 zero_draws 0 "a:1" 1 0))
    (by with_unfolding_all rfl)
  exact ⟨h.1, h.2.1⟩

/-- C8: in the patching race, every per-organization entry's effectiveness
equals `(compromised − vulnerableWindowCount) / compromised × 100` when
anything was compromised and 100 otherwise, the vulnerable-window count is
exactly the number of timeline events whose compromise day strictly
precedes the component's computed patch day, and an empty timeline always
yields effectiveness 100. -/
theorem C8_patch_effectiveness (g : DependencyGraph) (t0 : ℤ)
    (draws : ℕ → ℚ) (idx0 : ℕ) (initial : String) (days : ℕ) (dp : ℚ)
    (orgs : List OrgType) (res : List (OrgType × OrgRaceResult))
    (h : simulate_patching_race g t0 draws idx0 initial days dp orgs = .ok res) :
    ∀ e ∈ res,
      e.2.patch_effectiveness =
        (if 0 < e.2.attack_result.compromised_count then
          ((e.2.attack_result.compromised_count : ℚ) -
            (e.2.vulnerable_window.length : ℚ)) /
            (e.2.attack_result.compromised_count : ℚ) * 100
         else 100) ∧
      e.2.vulnerable_window.length =
        (e.2.attack_result.timeline.filter (fun ev =>
          decide ((ev.day : ℤ) <
            (dict_get e.2.patching_timeline ev.component_id).getD 0))).length ∧
      (e.2.attack_result.timeline = [] → e.2.patch_effectiveness = 100) := by
  cases hg : dict_get g.components initial with
  | none =>
      unfold simulate_patching_race at h
      rw [hg] at h
      exact absurd h (by simp)
  | some c =>
      unfold simulate_patching_race at h
      rw [hg] at h
      have hres' : (orgs.foldl (race_step g t0 draws initial days dp)
          ([], idx0)).1 = res := Except.ok.inj h
      intro e he
      rw [← hres'] at he
      refine foldl_race_step_inv g t0 draws initial days dp
        (fun e =>
          e.2.patch_effectiveness =
            (if 0 < e.2.attack_result.compromised_count then
              ((e.2.attack_result.compromised_count : ℚ) -
                (e.2.vulnerable_window.length : ℚ)) /
                (e.2.attack_result.compromised_count : ℚ) * 100
             else 100) ∧
          e.2.vulnerable_window.length =
            (e.2.attack_result.timeline.filter (fun ev =>
              decide ((ev.day : ℤ) <
                (dict_get e.2.patching_timeline ev.component_id).getD 0))).length ∧
          (e.2.attack_result.timeline = [] → e.2.patch_effectiveness = 100))
        ?_ orgs ([], idx0) (by intro e' he'; simp at he') e he
      intro idx org
      refine ⟨rfl, ?_, ?_⟩
      · show (vulnerable_window_of _ _).length = _
        rw [vulnerable_window_of_eq]
        rw [List.length_map]
        rfl
      · intro htl
        show (org_race_result _ _).patch_effectiveness = 100
        unfold org_race_result
        dsimp only
        have hw : vulnerable_window_of (attack_result_of g initial days
            (simulate_attack_run g t0 draws idx initial days dp)).timeline
            (patching_timeline_of g org draws
              (simulate_attack_run g t0 draws idx initial days dp).1.idx).1 = [] := by
          have htl' : (attack_result_of g initial days
              (simulate_attack_run g t0 draws idx initial days dp)).timeline = [] := htl
          rw [htl']
          rfl
        rw [hw]
        by_cases hc : 0 < (attack_result_of g initial days
            (simulate_attack_run g t0 draws idx initial days dp)).compromised_count
        · rw [if_pos hc]
          have hne : ((attack_result_of g initial days
              (simulate_attack_run g t0 draws idx initial days dp)).compromised_count : ℚ) ≠ 0 := by
            exact_mod_cast Nat.pos_iff_ne_zero.mp hc
          rw [List.length_nil]
          rw [Nat.cast_zero, sub_zero, div_self hne, one_mul]
        · rw [if_neg hc]

/-- C8 witness: on the one-component store (no dependents, so the timeline
is empty), the enterprise entry of the patching race has effectiveness
100. -/
theorem C8_patch_effectiveness_witness :
    ((OrgType.enterprise, org_race_result
        (attack_result_of gW "a:1" 1 (simulate_attack_run gW 0 zero_draws 0 "a:1" 1 0))
        (patching_timeline_of gW .enterprise zero_draws
          (simulate_attack_run gW 0 zero_draws 0 "a:1" 1 0).1.idx).1) :
      OrgType × OrgRaceResult).2.patch_effectiveness = 100 := by
  have h := C8_patch_effectiveness gW 0 zero_draws 0 "a:1" 1 0 [.enterprise]
    ([OrgType.enterprise].foldl (race_step gW 0 zero_draws "a:1" 1 0) ([], 0)).1
    (by with_unfolding_all rfl)
  exact (h _ (by with_unfolding_all decide)).2.2 (by with_unfolding_all decide)

end SupplyChain
